import Mathlib

/-!
Verification development for the hook-generator video orchestration script
(`hook-generator.py`).  The script discovers portrait images, uploads each to a
temporary host, submits image-to-video generation tasks to a remote API,
polls for completion, downloads finished videos, and crops them with an
external tool.  Each definition below is a shallow embedding of one source
function; external effects (filesystem, HTTP responses, the crop tool, the
clock) are passed in explicitly as oracle values so that the control flow of
the source is reproduced exactly.
-/

/-! ## Filesystem model

Files are byte lists addressed by path strings.  `FS.write` models opening a
path for writing (creating or truncating) and writing content; `FS.removeFile`
models `os.remove`. -/

/-- File content: a list of bytes. -/
abbrev Content := List Nat

/-- A filesystem: a partial map from path strings to file contents. -/
abbrev FS := String → Option Content

/-- Write `c` at path `p` (create or overwrite). -/
def FS.write (fs : FS) (p : String) (c : Content) : FS :=
  fun q => if q = p then some c else fs q

/-- Remove the file at path `p` (models `os.remove`). -/
def FS.removeFile (fs : FS) (p : String) : FS :=
  fun q => if q = p then none else fs q

/-- The empty filesystem. -/
def emptyFS : FS := fun _ => none

/-- Remove the file at `p` only when it exists: models the source pattern
`if os.path.exists(temp_output): os.remove(temp_output)`. -/
def removeIfThere (fs : FS) (p : String) : FS :=
  if (fs p).isSome then fs.removeFile p else fs

/-! ## Python string primitives

`str.replace(old, new)` in Python replaces every non-overlapping occurrence
of `old`, scanning left to right.  `pyReplaceAux` is that scan, fueled for
structural recursion (fuel `s.length` always suffices for a nonempty
pattern).  `countOccAux` counts the occurrences the same scan finds, and
`containsSub` models Python's `in` substring test. -/

/-- One left-to-right replace-all scan over `s`, consuming at least one
character of `s` per unit of fuel. -/
def pyReplaceAux (pat rep : List Char) : Nat → List Char → List Char
  | _, [] => []
  | 0, s => s
  | fuel + 1, c :: cs =>
    if pat.isPrefixOf (c :: cs) then
      rep ++ pyReplaceAux pat rep fuel (List.drop pat.length (c :: cs))
    else
      c :: pyReplaceAux pat rep fuel cs

/-- Python `s.replace(pat, rep)` on character lists. -/
def pyReplace (pat rep s : List Char) : List Char :=
  pyReplaceAux pat rep s.length s

/-- Number of occurrences the replace-all scan matches (non-overlapping,
leftmost first), with the same fuel discipline as `pyReplaceAux`. -/
def countOccAux (pat : List Char) : Nat → List Char → Nat
  | _, [] => 0
  | 0, _ => 0
  | fuel + 1, c :: cs =>
    if pat.isPrefixOf (c :: cs) then
      countOccAux pat fuel (List.drop pat.length (c :: cs)) + 1
    else
      countOccAux pat fuel cs

/-- Number of non-overlapping occurrences of `pat` in `s`. -/
def countOcc (pat s : List Char) : Nat :=
  countOccAux pat s.length s

/-- Python's `pat in s` substring test on character lists. -/
def containsSub (pat : List Char) : List Char → Bool
  | [] => pat.isEmpty
  | c :: cs => pat.isPrefixOf (c :: cs) || containsSub pat cs

/-- Substitution of `rep` for `pat` exactly once, at the leftmost occurrence,
leaving the rest of the string unchanged.  This definition follows the
spec's words ("substituted ... exactly once"), for comparison with the
source's replace-all behaviour. -/
def substituteOnceSpec (pat rep : List Char) : List Char → List Char
  | [] => []
  | c :: cs =>
    if pat.isPrefixOf (c :: cs) then
      rep ++ List.drop pat.length (c :: cs)
    else
      c :: substituteOnceSpec pat rep cs

/-! ## Local post-processor: `crop_video_to_9_16`

The external tool run (`subprocess.run` on ffmpeg) is an oracle: it either
returns an exit code, having possibly written the output file, or raises.
The source computes the temporary output name with
`input_path.replace('.mp4', '_temp_cropped.mp4')`, runs the tool, and on
exit code 0 executes `shutil.move(temp_output, input_path)`; on non-zero
exit or a thrown error it removes the temporary file when present. -/

/-- Outcome of the external tool invocation: it exits with a code after
writing its output file (or not), or the invocation raises. -/
inductive ToolOutcome where
  | exited (code : Nat) (written : Option Content)
  | raised (written : Option Content)
deriving DecidableEq

/-- The temporary output path: `input_path.replace('.mp4', '_temp_cropped.mp4')`. -/
def temp_output_name (input_path : String) : String :=
  ⟨pyReplace ".mp4".data "_temp_cropped.mp4".data input_path.data⟩

/-- Effect of the tool run on the filesystem: its output file, when written,
appears at the temporary path (ffmpeg is passed `-y`, so it overwrites). -/
def runToolFS (fs : FS) (temp : String) : Option Content → FS
  | some c => fs.write temp c
  | none => fs

/-- Shallow embedding of `crop_video_to_9_16`: returns the function's boolean
result and the filesystem after the call.  `ffmpeg_ok` is the result of
`check_ffmpeg()`. -/
def crop_video_to_9_16 (ffmpeg_ok : Bool) (fs : FS) (input_path : String)
    (tool : ToolOutcome) : Bool × FS :=
  if ffmpeg_ok = false then (false, fs)
  else
    let temp := temp_output_name input_path
    match tool with
    | .raised w =>
      let fs1 := runToolFS fs temp w
      (false, removeIfThere fs1 temp)
    | .exited code w =>
      let fs1 := runToolFS fs temp w
      if code = 0 then
        match fs1 temp with
        | some c => (true, (fs1.removeFile temp).write input_path c)
        | none => (false, removeIfThere fs1 temp)
      else
        (false, removeIfThere fs1 temp)

/-! ## Generation poll client: `wait_for_video_completion`

Each poll attempt performs a GET whose outcome is an oracle value: the
request raises, or returns a status code with a JSON body (absent when
`response.json()` raises).  The body carries the `code` envelope field, the
`task_status` string and the `task_result.videos` list, whose elements each
carry an optional `url` field — all optional, exactly as `dict.get` makes
them in the source. -/

/-- Parsed JSON body of a poll response. -/
structure PollBody where
  code : Option Int
  task_status : Option String
  videos : List (Option String)
deriving DecidableEq

/-- Outcome of one poll attempt's HTTP GET. -/
inductive PollResponse where
  | raised
  | resp (status_code : Nat) (body : Option PollBody)
deriving DecidableEq

/-- One poll attempt's decision, mirroring the conditional ladder of the
source loop body: `some res` means the loop returns `res` now (a terminal
state), `none` means the attempt falls through to `update(1); sleep(delay)`
and the loop continues.  A raised error, a non-200 status, a non-zero
envelope code, a missing or unrecognized `task_status`, and a "succeed"
with an empty `videos` list all continue. -/
def pollOnce (r : PollResponse) : Option (Option String) :=
  match r with
  | .raised => none
  | .resp status_code body =>
    if status_code = 200 then
      match body with
      | none => none
      | some b =>
        if b.code = some 0 then
          match b.task_status with
          | some task_status =>
            if task_status = "succeed" then
              match b.videos with
              | v :: _ => some v
              | [] => none
            else if task_status = "failed" then
              some none
            else none
          | none => none
        else none
    else none

/-- Result of a full poll loop run: the returned value, the number of loop
iterations entered (each performing one GET), and the number of
`time.sleep(delay)` calls executed. -/
structure PollRun where
  video_url : Option String
  polls : Nat
  sleeps : Nat
deriving DecidableEq

/-- The `for attempt in range(max_attempts)` loop: `remaining` counts the
iterations still allowed, `attempt` the current index into the response
oracle. -/
def wait_go (responses : Nat → PollResponse) (attempt : Nat) : Nat → PollRun
  | 0 => ⟨none, 0, 0⟩
  | remaining + 1 =>
    match pollOnce (responses attempt) with
    | some res => ⟨res, 1, 0⟩
    | none =>
      let rest := wait_go responses (attempt + 1) remaining
      ⟨rest.video_url, rest.polls + 1, rest.sleeps + 1⟩

/-- Default `max_attempts` of `wait_for_video_completion`. -/
def max_attempts : Nat := 60

/-- Default `delay` (seconds slept between attempts) of
`wait_for_video_completion`. -/
def delay : Nat := 5

/-- Shallow embedding of `wait_for_video_completion` with its default
arguments: polls up to `max_attempts` times against the response oracle. -/
def wait_for_video_completion (responses : Nat → PollResponse) : PollRun :=
  wait_go responses 0 max_attempts

/-- The same response oracle with every raised poll attempt replaced by a
well-formed still-pending response. -/
def errorsAsPending (responses : Nat → PollResponse) : Nat → PollResponse :=
  fun k =>
    match responses k with
    | .raised => .resp 200 (some ⟨some 0, some "processing", []⟩)
    | r => r

/-! ## Remote upload client: `upload_image_to_temporary_hosting` -/

/-- Parsed JSON body of the upload response: the `status` field and the
nested `data.url` field, each possibly absent. -/
structure UploadBody where
  status : Option String
  url : Option String
deriving DecidableEq

/-- Outcome of the upload POST: raised, or a status code with a body
(absent when `response.json()` raises). -/
inductive UploadResponse where
  | raised
  | resp (status_code : Nat) (body : Option UploadBody)
deriving DecidableEq

/-- The URL rewrite applied on upload success:
`data['data']['url'].replace('tmpfiles.org/', 'tmpfiles.org/dl/')`. -/
def tmpfilesTransform (u : String) : String :=
  ⟨pyReplace "tmpfiles.org/".data "tmpfiles.org/dl/".data u.data⟩

/-- Shallow embedding of `upload_image_to_temporary_hosting`: every path
other than a 200 response whose body has `status == 'success'` and carries
a URL ends at `return None` (a missing `data.url` raises `KeyError`, which
the enclosing `except` swallows). -/
def upload_image_to_temporary_hosting (r : UploadResponse) : Option String :=
  match r with
  | .raised => none
  | .resp status_code body =>
    if status_code = 200 then
      match body with
      | none => none
      | some b =>
        if b.status = some "success" then
          match b.url with
          | some u => some (tmpfilesTransform u)
          | none => none
        else none
    else none

/-! ## Authentication token issuer: `encode_jwt_token`

The source builds the payload with two separate `time.time()` readings:
`exp` from the first reading plus 1800 and `nbf` from the second reading
minus 5.  The HS256 signature over the payload is abstracted away; a token
is identified with its claim set. -/

/-- Claim set of an issued token. -/
structure JwtToken where
  iss : String
  exp : Int
  nbf : Int
deriving DecidableEq

/-- Shallow embedding of `encode_jwt_token`: `t1` and `t2` are the two
consecutive `int(time.time())` readings made while building the payload. -/
def encode_jwt_token (ak : String) (t1 t2 : Int) : JwtToken :=
  ⟨ak, t1 + 1800, t2 - 5⟩

/-- One outbound Kling API request: its kind ("submit" or "poll"), the clock
time at which it is issued, and the bearer token it carries. -/
structure KlingRequest where
  kind : String
  time : Int
  token : JwtToken
deriving DecidableEq

/-- The requests issued by one `send_to_kling` call and the
`wait_for_video_completion` loop it starts: the token is generated once,
before the submit POST, and the same `authorization` value is passed to
`wait_for_video_completion`, which puts it in the header of every poll GET.
`poll_times` lists the clock times of the poll attempts performed. -/
def kling_request_trace (ak : String) (t1 t2 : Int) (poll_times : List Int) :
    List KlingRequest :=
  let authorization := encode_jwt_token ak t1 t2
  ⟨"submit", t1, authorization⟩ :: poll_times.map (fun t => ⟨"poll", t, authorization⟩)

/-! ## Input image discovery: `find_all_input_images`

The base-image directory is an oracle: a flag for its existence and a
listing of entries (name plus an `is_file` flag).  `pySuffix` and `pyStem`
model `pathlib.PurePath.suffix` / `.stem` on a final path component:
Python takes the last dot at an index `i` with `0 < i < len(name) - 1`. -/

/-- A directory entry as seen by `Path.iterdir()`. -/
structure DirEntry where
  name : String
  is_file : Bool
deriving DecidableEq

/-- Index of the last '.' in a name (`name.rfind('.')`). -/
def lastDotIdx (name : List Char) : Option Nat :=
  match name.reverse.findIdx? (fun c => c == '.') with
  | some j => some (name.length - 1 - j)
  | none => none

/-- Python `PurePath(name).suffix`. -/
def pySuffix (name : String) : String :=
  match lastDotIdx name.data with
  | some i => if 0 < i ∧ i < name.data.length - 1 then ⟨name.data.drop i⟩ else ""
  | none => ""

/-- Python `PurePath(name).stem`. -/
def pyStem (name : String) : String :=
  match lastDotIdx name.data with
  | some i => if 0 < i ∧ i < name.data.length - 1 then ⟨name.data.take i⟩ else name

  | none => name

/-- Python `s.lower()`, on the ASCII names this program handles. -/
def lowerStr (s : String) : String := ⟨s.data.map Char.toLower⟩

/-- Python `pat in s` on strings. -/
def containsSubStr (pat s : String) : Bool := containsSub pat.data s.data

/-- The classification test of the discovery loop:
`"crying" in file.name.lower()`. -/
def is_crying_name (name : String) : Bool :=
  containsSubStr "crying" (lowerStr name)

/-- The accepted image extensions, as in the source. -/
def image_extensions : List String := [".png", ".jpg", ".jpeg", ".webp", ".bmp"]

/-- The discovery loop's per-entry test:
`file.is_file() and file.suffix.lower() in image_extensions`. -/
def isImageFile (e : DirEntry) : Bool :=
  e.is_file && image_extensions.contains (lowerStr (pySuffix e.name))

/-- The discovery loop: collects `(str(file), is_crying, file.stem)` tuples
in listing order. -/
def findImagesLoop (base_image_dir : String) : List DirEntry →
    List (String × Bool × String)
  | [] => []
  | e :: rest =>
    if isImageFile e then
      (base_image_dir ++ "/" ++ e.name, is_crying_name e.name, pyStem e.name) ::
        findImagesLoop base_image_dir rest
    else
      findImagesLoop base_image_dir rest

/-- Shallow embedding of `find_all_input_images`: raises (models
`FileNotFoundError`) when the directory is missing or no image file is
found, otherwise returns the discovered tuples. -/
def find_all_input_images (base_image_dir : String) (dir_present : Bool)
    (entries : List DirEntry) : Except String (List (String × Bool × String)) :=
  if dir_present = false then .error "base-image directory not found"
  else
    let images := findImagesLoop base_image_dir entries
    if images = [] then .error "No image files found in base-image directory"
    else .ok images

/-! ## Prompt table and variant selection

The values of the `PROMPTS` dict are fixed prompt texts that no control flow
ever inspects (they are only shipped inside the submit payload); the
embedding therefore carries the keys, in dict insertion order. -/

/-- Keys of the `PROMPTS` dict, in insertion order. -/
def PROMPTS_keys : List String := ["surprised", "sad", "confused", "romantic", "crying"]

/-- Variant selection of `process_single_image`: the `crying` entry alone for
a crying image, every other entry (in order) otherwise. -/
def prompts_to_use (is_crying_image : Bool) : List String :=
  if is_crying_image then ["crying"] else PROMPTS_keys.filter (fun k => k != "crying")

/-- The orchestrator's per-image variant count (`1 if is_crying else 4`). -/
def videos_per_image (is_crying_image : Bool) : Nat :=
  if is_crying_image then 1 else 4

/-! ## Download client: `download_kling_video` -/

/-- Outcome of the download GET: raised, or a status code with the streamed
body chunks. -/
inductive HttpDownload where
  | raised
  | resp (status_code : Nat) (chunks : List Content)
deriving DecidableEq

/-- Shallow embedding of `download_kling_video`: returns the function's
result, the filesystem after the call, and the number of units it added to
the shared overall progress bar.  On a 200 response the destination is
opened for writing and the chunks are written; `progress_bar.update(1)`
runs only on this success path.  Any other status raises, the `except`
swallows it, and the call returns `None` having touched neither the
filesystem nor the shared bar. -/
def download_kling_video (fs : FS) (r : HttpDownload) (save_path : String) :
    Option String × FS × Nat :=
  match r with
  | .raised => (none, fs, 0)
  | .resp status_code chunks =>
    if status_code = 200 then
      (some save_path, fs.write save_path chunks.flatten, 1)
    else
      (none, fs, 0)

/-! ## Per-image processing: `process_single_image` -/

/-- Output directory constant (`OUTPUT_VIDEOS_DIR`, made relative to the
script directory in the source). -/
def OUTPUT_VIDEOS_DIR : String := "output-videos"

/-- Destination path of one generated video:
`os.path.join(OUTPUT_VIDEOS_DIR, f"{image_basename}-{emotion}.mp4")`. -/
def output_path (image_basename emotion : String) : String :=
  OUTPUT_VIDEOS_DIR ++ "/" ++ image_basename ++ "-" ++ emotion ++ ".mp4"

/-- Oracle for the network effects of one image's processing: the upload
result, the `send_to_kling` result per emotion, and the download response
per emotion. -/
structure ImageEnv where
  upload : Option String
  gen : String → Option String
  dl : String → HttpDownload

/-- Accumulated result of the per-emotion loop of `process_single_image`. -/
structure VariantsResult where
  successful : Nat
  failed : Nat
  paths : List String
  progress : Nat
  fs : FS

/-- The per-emotion loop of `process_single_image`: for each emotion one
`send_to_kling` call followed by `progress_bar.update(1)`, then either a
download (which advances the bar once more only when it succeeds) or, when
no video URL came back, a compensating `update(1)` for the skipped
download step. -/
def processVariants (env : ImageEnv) (image_basename : String) :
    List String → FS → VariantsResult
  | [], fs => ⟨0, 0, [], 0, fs⟩
  | emotion :: rest, fs =>
    match env.gen emotion with
    | some _ =>
      let d := download_kling_video fs (env.dl emotion) (output_path image_basename emotion)
      let tail := processVariants env image_basename rest d.2.1
      match d.1 with
      | some p =>
        ⟨tail.successful + 1, tail.failed, p :: tail.paths, 1 + d.2.2 + tail.progress, tail.fs⟩
      | none =>
        ⟨tail.successful, tail.failed + 1, tail.paths, 1 + d.2.2 + tail.progress, tail.fs⟩
    | none =>
      let tail := processVariants env image_basename rest fs
      ⟨tail.successful, tail.failed + 1, tail.paths, 2 + tail.progress, tail.fs⟩

/-- Shallow embedding of `process_single_image`: `none` in the first
component models the `raise` on upload failure (which happens before any
progress update); otherwise the returned triple
`(successful, failed, successful_video_paths)`, together with the total
progress units added (1 for the upload step plus the loop's) and the
filesystem after the call. -/
def process_single_image (env : ImageEnv) (is_crying_image : Bool)
    (image_basename : String) (fs : FS) :
    Option (Nat × Nat × List String) × Nat × FS :=
  match env.upload with
  | none => (none, 0, fs)
  | some _ =>
    let r := processVariants env image_basename (prompts_to_use is_crying_image) fs
    (some (r.successful, r.failed, r.paths), 1 + r.progress, r.fs)

/-! ## Orchestrator: `generate_all_videos` -/

/-- Aggregated result of the orchestrator's image loop. -/
structure RunResult where
  total_successful : Nat
  total_failed : Nat
  paths : List String
  progress : Nat
  fs : FS

/-- The image loop of `generate_all_videos`: per image either fold in the
triple returned by `process_single_image`, or — when it raised — advance
the bar by the image's whole precomputed share `1 + videos_per_image * 2`
and count all its variants failed, then continue with the next image. -/
def generate_all_videos (env : String → ImageEnv) :
    List (String × Bool × String) → FS → RunResult
  | [], fs => ⟨0, 0, [], 0, fs⟩
  | (image_path, is_crying, image_basename) :: rest, fs =>
    match process_single_image (env image_path) is_crying image_basename fs with
    | (some (s, f, ps), pu, fs1) =>
      let tail := generate_all_videos env rest fs1
      ⟨s + tail.total_successful, f + tail.total_failed, ps ++ tail.paths,
        pu + tail.progress, tail.fs⟩
    | (none, pu, fs1) =>
      let tail := generate_all_videos env rest fs1
      ⟨tail.total_successful, videos_per_image is_crying + tail.total_failed, tail.paths,
        pu + (1 + videos_per_image is_crying * 2) + tail.progress, tail.fs⟩

/-- The precomputed bar total of `generate_all_videos`:
`1 + videos_per_image * 2` summed over all images. -/
def total_video_steps (images : List (String × Bool × String)) : Nat :=
  images.foldl (fun acc img => acc + (1 + videos_per_image img.2.1 * 2)) 0

/-! ## Helper lemmas on the replace-all scan -/

/-- A boolean prefix gives the length inequality. -/
theorem length_le_of_isPrefixOf {α : Type} [BEq α] [LawfulBEq α] :
    ∀ l₁ l₂ : List α, l₁.isPrefixOf l₂ = true → l₁.length ≤ l₂.length := by
  intro l₁
  induction l₁ with
  | nil => intro l₂ _; simp
  | cons a as ih =>
    intro l₂ h
    cases l₂ with
    | nil => simp [List.isPrefixOf] at h
    | cons b bs =>
      simp only [List.isPrefixOf, Bool.and_eq_true] at h
      have := ih bs h.2
      simp only [List.length_cons]
      omega

/-- With a nonempty pattern and a replacement at least as long, the
replace-all scan never shortens the string. -/
theorem pyReplaceAux_length_ge (pat rep : List Char) (hpat : pat ≠ [])
    (hlen : pat.length ≤ rep.length) :
    ∀ fuel s, s.length ≤ fuel → s.length ≤ (pyReplaceAux pat rep fuel s).length := by
  intro fuel
  induction fuel with
  | zero =>
    intro s hs
    have hnil : s = [] := List.length_eq_zero.mp (Nat.le_zero.mp hs)
    subst hnil
    simp [pyReplaceAux]
  | succ n ih =>
    intro s hs
    match s with
    | [] => simp [pyReplaceAux]
    | c :: cs =>
      simp only [pyReplaceAux]
      by_cases hpre : pat.isPrefixOf (c :: cs) = true
      · have hple : pat.length ≤ (c :: cs).length :=
          length_le_of_isPrefixOf _ _ hpre
        have hpat1 : 1 ≤ pat.length := List.length_pos.mpr hpat
        have hdlen : (List.drop pat.length (c :: cs)).length = (c :: cs).length - pat.length :=
          List.length_drop pat.length (c :: cs)
        have hdfuel : (List.drop pat.length (c :: cs)).length ≤ n := by
          simp only [List.length_cons] at *
          omega
        have hrec := ih (List.drop pat.length (c :: cs)) hdfuel
        rw [if_pos hpre]
        simp only [List.length_append, List.length_cons] at *
        omega
      · have hcs : cs.length ≤ n := by
          simp only [List.length_cons] at hs
          omega
        have hrec := ih cs hcs
        rw [if_neg hpre]
        simp only [List.length_cons] at *
        omega

/-- With a nonempty pattern, a strictly longer replacement, and at least one
occurrence present, the replace-all scan strictly lengthens the string. -/
theorem pyReplaceAux_length_lt (pat rep : List Char) (hpat : pat ≠ [])
    (hlen : pat.length < rep.length) :
    ∀ fuel s, s.length ≤ fuel → containsSub pat s = true →
      s.length < (pyReplaceAux pat rep fuel s).length := by
  intro fuel
  induction fuel with
  | zero =>
    intro s hs hocc
    have hnil : s = [] := List.length_eq_zero.mp (Nat.le_zero.mp hs)
    subst hnil
    simp only [containsSub, List.isEmpty_iff] at hocc
    exact absurd hocc hpat
  | succ n ih =>
    intro s hs hocc
    match s with
    | [] =>
      simp only [containsSub, List.isEmpty_iff] at hocc
      exact absurd hocc hpat
    | c :: cs =>
      simp only [pyReplaceAux]
      by_cases hpre : pat.isPrefixOf (c :: cs) = true
      · have hple : pat.length ≤ (c :: cs).length :=
          length_le_of_isPrefixOf _ _ hpre
        have hpat1 : 1 ≤ pat.length := List.length_pos.mpr hpat
        have hdlen : (List.drop pat.length (c :: cs)).length = (c :: cs).length - pat.length :=
          List.length_drop pat.length (c :: cs)
        have hdfuel : (List.drop pat.length (c :: cs)).length ≤ n := by
          simp only [List.length_cons] at *
          omega
        have hrec := pyReplaceAux_length_ge pat rep hpat (Nat.le_of_lt hlen) n
          (List.drop pat.length (c :: cs)) hdfuel
        rw [if_pos hpre]
        simp only [List.length_append, List.length_cons] at *
        omega
      · have hocc' : containsSub pat cs = true := by
          simp only [containsSub, Bool.or_eq_true] at hocc
          rcases hocc with h | h
          · exact absurd h hpre
          · exact h
        have hcs : cs.length ≤ n := by
          simp only [List.length_cons] at hs
          omega
        have hrec := ih cs hcs hocc'
        rw [if_neg hpre]
        simp only [List.length_cons] at *
        omega

/-- When the input path contains ".mp4", the derived temporary output name
is a different path (the substitution strictly lengthens the string). -/
theorem temp_output_name_ne (input_path : String)
    (h : containsSub ".mp4".data input_path.data = true) :
    temp_output_name input_path ≠ input_path := by
  intro heq
  have hd : pyReplace ".mp4".data "_temp_cropped.mp4".data input_path.data = input_path.data :=
    congrArg String.data heq
  have hlt : input_path.data.length <
      (pyReplace ".mp4".data "_temp_cropped.mp4".data input_path.data).length :=
    pyReplaceAux_length_lt ".mp4".data "_temp_cropped.mp4".data (by decide) (by decide)
      input_path.data.length input_path.data (Nat.le_refl _) h
  rw [hd] at hlt
  exact Nat.lt_irrefl _ hlt

/-! ## Pointwise filesystem lemmas -/

theorem FS.write_self (fs : FS) (p : String) (c : Content) : fs.write p c p = some c := by
  simp [FS.write]

theorem FS.write_other (fs : FS) (p : String) (c : Content) {q : String} (h : q ≠ p) :
    fs.write p c q = fs q := by
  simp [FS.write, h]

theorem FS.removeFile_self (fs : FS) (p : String) : fs.removeFile p p = none := by
  simp [FS.removeFile]

theorem FS.removeFile_other (fs : FS) (p : String) {q : String} (h : q ≠ p) :
    fs.removeFile p q = fs q := by
  simp [FS.removeFile, h]

theorem removeIfThere_self (fs : FS) (p : String) : removeIfThere fs p p = none := by
  by_cases h : (fs p).isSome
  · simp [removeIfThere, h, FS.removeFile]
  · simp only [removeIfThere, h, if_false]
    exact Option.not_isSome_iff_eq_none.mp h

theorem removeIfThere_other (fs : FS) (p : String) {q : String} (h : q ≠ p) :
    removeIfThere fs p q = fs q := by
  by_cases hp : (fs p).isSome
  · simp [removeIfThere, hp, FS.removeFile, h]
  · simp [removeIfThere, hp]

theorem runToolFS_other (fs : FS) (temp : String) (w : Option Content) {q : String}
    (h : q ≠ temp) : runToolFS fs temp w q = fs q := by
  cases w with
  | some c => simp [runToolFS, FS.write, h]
  | none => simp [runToolFS]

/-- Claim C1: the crop operation is atomic for every input path whose derived
temporary name differs from the path itself — equivalently (shown by
`temp_output_name_ne`) every path containing ".mp4", which covers every path
the program crops.  If the tool exits 0 having written its cropped output,
the original is replaced by that output and no temporary file remains; on a
non-zero exit or a thrown error the temporary file is gone and the original
is byte-identical to its pre-crop state; no other path is ever touched. -/
theorem crop_atomic_on_mp4_paths (fs : FS) (input_path : String) (tool : ToolOutcome)
    (hsub : containsSub ".mp4".data input_path.data = true) :
    (∀ c, tool = ToolOutcome.exited 0 (some c) →
        (crop_video_to_9_16 true fs input_path tool).1 = true ∧
        (crop_video_to_9_16 true fs input_path tool).2 input_path = some c ∧
        (crop_video_to_9_16 true fs input_path tool).2 (temp_output_name input_path) = none) ∧
    (∀ code w, tool = ToolOutcome.exited code w → code ≠ 0 →
        (crop_video_to_9_16 true fs input_path tool).1 = false ∧
        (crop_video_to_9_16 true fs input_path tool).2 input_path = fs input_path ∧
        (crop_video_to_9_16 true fs input_path tool).2 (temp_output_name input_path) = none) ∧
    (∀ w, tool = ToolOutcome.raised w →
        (crop_video_to_9_16 true fs input_path tool).1 = false ∧
        (crop_video_to_9_16 true fs input_path tool).2 input_path = fs input_path ∧
        (crop_video_to_9_16 true fs input_path tool).2 (temp_output_name input_path) = none) ∧
    (∀ q, q ≠ input_path → q ≠ temp_output_name input_path →
        (crop_video_to_9_16 true fs input_path tool).2 q = fs q) := by
  have hne : temp_output_name input_path ≠ input_path := temp_output_name_ne input_path hsub
  have hne' : input_path ≠ temp_output_name input_path := Ne.symm hne
  refine ⟨?_, ?_, ?_, ?_⟩
  · intro c htool
    subst htool
    have e : crop_video_to_9_16 true fs input_path (ToolOutcome.exited 0 (some c)) =
        (true, ((fs.write (temp_output_name input_path) c).removeFile
          (temp_output_name input_path)).write input_path c) := by
      simp [crop_video_to_9_16, runToolFS, FS.write_self]
    refine ⟨by simp only [e], ?_, ?_⟩
    · simp only [e]
      exact FS.write_self _ _ _
    · simp only [e, FS.write_other _ _ _ hne, FS.removeFile_self]
  · intro code w htool hcode
    subst htool
    have e : crop_video_to_9_16 true fs input_path (ToolOutcome.exited code w) =
        (false, removeIfThere (runToolFS fs (temp_output_name input_path) w)
          (temp_output_name input_path)) := by
      simp [crop_video_to_9_16, hcode]
    refine ⟨by simp only [e], ?_, ?_⟩
    · simp only [e, removeIfThere_other _ _ hne', runToolFS_other _ _ _ hne']
    · simp only [e, removeIfThere_self]
  · intro w htool
    subst htool
    have e : crop_video_to_9_16 true fs input_path (ToolOutcome.raised w) =
        (false, removeIfThere (runToolFS fs (temp_output_name input_path) w)
          (temp_output_name input_path)) := by
      simp [crop_video_to_9_16]
    refine ⟨by simp only [e], ?_, ?_⟩
    · simp only [e, removeIfThere_other _ _ hne', runToolFS_other _ _ _ hne']
    · simp only [e, removeIfThere_self]
  · intro q hqi hqt
    cases tool with
    | raised w =>
      have e : crop_video_to_9_16 true fs input_path (ToolOutcome.raised w) =
          (false, removeIfThere (runToolFS fs (temp_output_name input_path) w)
            (temp_output_name input_path)) := by
        simp [crop_video_to_9_16]
      simp only [e, removeIfThere_other _ _ hqt, runToolFS_other _ _ _ hqt]
    | exited code w =>
      by_cases hc : code = 0
      · subst hc
        cases hw : runToolFS fs (temp_output_name input_path) w (temp_output_name input_path) with
        | some c =>
          have e : crop_video_to_9_16 true fs input_path (ToolOutcome.exited 0 w) =
              (true, ((runToolFS fs (temp_output_name input_path) w).removeFile
                (temp_output_name input_path)).write input_path c) := by
            simp [crop_video_to_9_16, hw]
          simp only [e, FS.write_other _ _ _ hqi, FS.removeFile_other _ _ hqt,
            runToolFS_other _ _ _ hqt]
        | none =>
          have e : crop_video_to_9_16 true fs input_path (ToolOutcome.exited 0 w) =
              (false, removeIfThere (runToolFS fs (temp_output_name input_path) w)
                (temp_output_name input_path)) := by
            simp [crop_video_to_9_16, hw]
          simp only [e, removeIfThere_other _ _ hqt, runToolFS_other _ _ _ hqt]
      · have e : crop_video_to_9_16 true fs input_path (ToolOutcome.exited code w) =
            (false, removeIfThere (runToolFS fs (temp_output_name input_path) w)
              (temp_output_name input_path)) := by
          simp [crop_video_to_9_16, hc]
        simp only [e, removeIfThere_other _ _ hqt, runToolFS_other _ _ _ hqt]

/-- Claim C1 witness: the atomicity theorem applied at a concrete call: file
"a.mp4" holds [1], the tool exits 0 having written [2]; the original now
holds [2] and the temporary file is gone. -/
theorem crop_atomic_on_mp4_paths_witness :
    (crop_video_to_9_16 true (fun _ => some [1]) "a.mp4" (ToolOutcome.exited 0 (some [2]))).1
        = true ∧
    (crop_video_to_9_16 true (fun _ => some [1]) "a.mp4" (ToolOutcome.exited 0 (some [2]))).2
        "a.mp4" = some [2] ∧
    (crop_video_to_9_16 true (fun _ => some [1]) "a.mp4" (ToolOutcome.exited 0 (some [2]))).2
        (temp_output_name "a.mp4") = none :=
  (crop_atomic_on_mp4_paths (fun _ => some [1]) "a.mp4" (ToolOutcome.exited 0 (some [2]))
    (by decide)).1 [2] rfl

/-- Claim C1 counterexample to the unrestricted claim: for the input path
"video" (no ".mp4" substring) the derived temporary name coincides with the
path itself, so a failed crop (tool exits 1 after writing its output)
overwrites and then deletes the original: afterwards the file is gone, not
byte-identical to its pre-crop content [1, 2]. -/
theorem crop_failed_corrupts_extensionless_path_cex :
    ((fun _ => some [1, 2]) : FS) "video" = some [1, 2] ∧
    (crop_video_to_9_16 true (fun _ => some [1, 2]) "video" (ToolOutcome.exited 1 (some [9]))).1
        = false ∧
    (crop_video_to_9_16 true (fun _ => some [1, 2]) "video" (ToolOutcome.exited 1 (some [9]))).2
        "video" = none := by
  refine ⟨rfl, ?_, ?_⟩ <;> decide

/-! ## Poll loop lemmas -/

/-- A run whose first `n` attempts are all non-terminal exhausts its fuel:
`n` polls, `n` sleeps, no result. -/
theorem wait_go_all_pending (responses : Nat → PollResponse) :
    ∀ n a, (∀ j, j < n → pollOnce (responses (a + j)) = none) →
      wait_go responses a n = ⟨none, n, n⟩ := by
  intro n
  induction n with
  | zero => intro a _; rfl
  | succ m ih =>
    intro a h
    have h0 : pollOnce (responses a) = none := by
      have := h 0 (Nat.succ_pos m)
      simpa using this
    have ih' : wait_go responses (a + 1) m = ⟨none, m, m⟩ := by
      refine ih (a + 1) (fun j hj => ?_)
      have hsh : a + 1 + j = a + (j + 1) := by omega
      rw [hsh]
      exact h (j + 1) (Nat.succ_lt_succ hj)
    simp only [wait_go, h0, ih']

/-- A run whose attempt `k` is the first terminal one returns that attempt's
result after `k + 1` polls and `k` sleeps. -/
theorem wait_go_first_terminal (responses : Nat → PollResponse) (res : Option String) :
    ∀ n k a, k < n → (∀ j, j < k → pollOnce (responses (a + j)) = none) →
      pollOnce (responses (a + k)) = some res →
      wait_go responses a n = ⟨res, k + 1, k⟩ := by
  intro n
  induction n with
  | zero => intro k a hk _ _; omega
  | succ m ih =>
    intro k a hk hpre hterm
    cases k with
    | zero =>
      have h0 : pollOnce (responses a) = some res := by simpa using hterm
      simp only [wait_go, h0]
    | succ k' =>
      have h0 : pollOnce (responses a) = none := by
        have := hpre 0 (Nat.succ_pos k')
        simpa using this
      have ih' : wait_go responses (a + 1) m = ⟨res, k' + 1, k'⟩ := by
        refine ih k' (a + 1) (by omega) (fun j hj => ?_) ?_
        · have hsh : a + 1 + j = a + (j + 1) := by omega
          rw [hsh]
          exact hpre (j + 1) (Nat.succ_lt_succ hj)
        · have hsh : a + 1 + k' = a + (k' + 1) := by omega
          rw [hsh]
          exact hterm
      simp only [wait_go, h0, ih']

/-- A raised poll attempt decides exactly as a well-formed still-pending
response does. -/
theorem pollOnce_errorsAsPending (responses : Nat → PollResponse) (k : Nat) :
    pollOnce (errorsAsPending responses k) = pollOnce (responses k) := by
  unfold errorsAsPending
  cases responses k with
  | raised => decide
  | resp status_code body => rfl

/-- Claim C8: an error thrown during a poll attempt is caught and treated
exactly as a still-pending status: the whole run (returned value, number of
attempts consumed, number of fixed-delay sleeps) is identical to the run in
which every raised attempt is replaced by a well-formed "processing"
response.  In particular the error never propagates, consumes exactly one
of the bounded attempts, and is followed by the same `delay`-second sleep. -/
theorem poll_error_behaves_as_pending (responses : Nat → PollResponse) :
    wait_for_video_completion responses =
      wait_for_video_completion (errorsAsPending responses) := by
  have main : ∀ n a, wait_go responses a n = wait_go (errorsAsPending responses) a n := by
    intro n
    induction n with
    | zero => intro a; rfl
    | succ m ih =>
      intro a
      simp only [wait_go, pollOnce_errorsAsPending]
      cases hp : pollOnce (responses a) with
      | some res => rfl
      | none => simp only [ih (a + 1)]
  exact main max_attempts 0

/-- Claim C3 (amended): if the first `k` responses are non-terminal then a
"succeed" response carrying a nonempty video list at attempt `k` ends the
loop at exactly `k + 1` polls (after `k` sleeps) returning the first
video's `url` field; a "failed" response at attempt `k` likewise ends it at
`k + 1` polls returning nothing; and if every one of the `max_attempts`
responses is non-terminal the loop performs exactly `max_attempts` = 60
polls, each followed by the fixed `delay`-second sleep, and returns
nothing.  (A "succeed" whose video list is empty is non-terminal: the
source falls through to the next attempt.) -/
theorem poll_loop_terminal_behavior (responses : Nat → PollResponse) (k : Nat)
    (hk : k < max_attempts)
    (hpre : ∀ j, j < k → pollOnce (responses j) = none) :
    (∀ b u vs, responses k = PollResponse.resp 200 (some b) → b.code = some 0 →
        b.task_status = some "succeed" → b.videos = u :: vs →
        wait_for_video_completion responses = ⟨u, k + 1, k⟩) ∧
    (∀ b, responses k = PollResponse.resp 200 (some b) → b.code = some 0 →
        b.task_status = some "failed" →
        wait_for_video_completion responses = ⟨none, k + 1, k⟩) ∧
    ((∀ j, j < max_attempts → pollOnce (responses j) = none) →
        wait_for_video_completion responses = ⟨none, max_attempts, max_attempts⟩) := by
  refine ⟨?_, ?_, ?_⟩
  · intro b u vs hresp hcode hst hvids
    have hterm : pollOnce (responses k) = some u := by
      rw [hresp]
      simp [pollOnce, hcode, hst, hvids]
    refine wait_go_first_terminal responses u max_attempts k 0 hk (fun j hj => ?_) ?_
    · rw [Nat.zero_add]
      exact hpre j hj
    · rw [Nat.zero_add]
      exact hterm
  · intro b hresp hcode hst
    have hterm : pollOnce (responses k) = some none := by
      rw [hresp]
      simp [pollOnce, hcode, hst]
    refine wait_go_first_terminal responses none max_attempts k 0 hk (fun j hj => ?_) ?_
    · rw [Nat.zero_add]
      exact hpre j hj
    · rw [Nat.zero_add]
      exact hterm
  · intro hall
    refine wait_go_all_pending responses max_attempts 0 (fun j hj => ?_)
    rw [Nat.zero_add]
    exact hall j hj

/-- Claim C3 witness: a "succeed" response with one video at the very first
attempt ends the loop after exactly one poll and no sleep, returning that
video's url. -/
theorem poll_loop_terminal_behavior_witness :
    wait_for_video_completion
        (fun _ => PollResponse.resp 200 (some ⟨some 0, some "succeed", [some "http://v"]⟩)) =
      ⟨some "http://v", 1, 0⟩ :=
  (poll_loop_terminal_behavior
      (fun _ => PollResponse.resp 200 (some ⟨some 0, some "succeed", [some "http://v"]⟩)) 0
      (by decide) (fun j hj => absurd hj (Nat.not_lt_zero j))).1
    ⟨some 0, some "succeed", [some "http://v"]⟩ (some "http://v") [] rfl rfl rfl rfl

/-- Claim C3 counterexample to the claim as stated: a response whose
`task_status` is "succeed" but whose video list is empty does not end the
loop at all — the attempt is treated as still-pending, and a run fed such
responses forever performs all 60 polls and returns no video URL, instead
of terminating immediately with a URL on the first "succeed". -/
theorem poll_succeed_empty_videos_cex :
    pollOnce (PollResponse.resp 200 (some ⟨some 0, some "succeed", []⟩)) = none ∧
    wait_for_video_completion (fun _ => PollResponse.resp 200 (some ⟨some 0, some "succeed", []⟩)) =
      ⟨none, 60, 60⟩ :=
  ⟨rfl, wait_go_all_pending _ 60 0 (fun _ _ => rfl)⟩

/-- When the scan finds no occurrence, replace-all is the identity. -/
theorem countOccAux_zero_replace_id (pat rep : List Char) (_hpat : pat ≠ []) :
    ∀ fuel s, s.length ≤ fuel → countOccAux pat fuel s = 0 →
      pyReplaceAux pat rep fuel s = s := by
  intro fuel
  induction fuel with
  | zero =>
    intro s hs _
    have hnil : s = [] := List.length_eq_zero.mp (Nat.le_zero.mp hs)
    subst hnil
    rfl
  | succ n ih =>
    intro s hs hcount
    match s with
    | [] => rfl
    | c :: cs =>
      by_cases hpre : pat.isPrefixOf (c :: cs) = true
      · exfalso
        simp only [countOccAux, if_pos hpre] at hcount
        omega
      · simp only [countOccAux, if_neg hpre] at hcount
        have hcs : cs.length ≤ n := by
          simp only [List.length_cons] at hs
          omega
        simp only [pyReplaceAux, if_neg hpre, ih cs hcs hcount]

/-- When the scan finds exactly one occurrence, replace-all coincides with
substituting exactly once at the leftmost occurrence. -/
theorem countOccAux_one_replace_once (pat rep : List Char) (hpat : pat ≠ []) :
    ∀ fuel s, s.length ≤ fuel → countOccAux pat fuel s = 1 →
      pyReplaceAux pat rep fuel s = substituteOnceSpec pat rep s := by
  intro fuel
  induction fuel with
  | zero =>
    intro s hs _
    have hnil : s = [] := List.length_eq_zero.mp (Nat.le_zero.mp hs)
    subst hnil
    rfl
  | succ n ih =>
    intro s hs hcount
    match s with
    | [] => rfl
    | c :: cs =>
      by_cases hpre : pat.isPrefixOf (c :: cs) = true
      · have hple : pat.length ≤ (c :: cs).length :=
          length_le_of_isPrefixOf _ _ hpre
        have hpat1 : 1 ≤ pat.length := List.length_pos.mpr hpat
        have hdfuel : (List.drop pat.length (c :: cs)).length ≤ n := by
          rw [List.length_drop]
          simp only [List.length_cons] at *
          omega
        have hinner : countOccAux pat n (List.drop pat.length (c :: cs)) = 0 := by
          simp only [countOccAux, if_pos hpre] at hcount
          omega
        simp only [pyReplaceAux, substituteOnceSpec, if_pos hpre,
          countOccAux_zero_replace_id pat rep hpat n _ hdfuel hinner]
      · simp only [countOccAux, if_neg hpre] at hcount
        have hcs : cs.length ≤ n := by
          simp only [List.length_cons] at hs
          omega
        simp only [pyReplaceAux, substituteOnceSpec, if_neg hpre, ih cs hcs hcount]

/-- Claim C4 (amended): on a successful upload response the returned URL is
the reported URL with every occurrence of "tmpfiles.org/" replaced by
"tmpfiles.org/dl/" (Python `str.replace` replaces all occurrences); when
that substring occurs exactly once — as in every URL the host actually
returns — this is precisely the claim's single substitution. -/
theorem upload_url_transform_single_occurrence (b : UploadBody) (u : String)
    (hst : b.status = some "success") (hurl : b.url = some u)
    (honce : countOcc "tmpfiles.org/".data u.data = 1) :
    upload_image_to_temporary_hosting (UploadResponse.resp 200 (some b)) =
      some ⟨substituteOnceSpec "tmpfiles.org/".data "tmpfiles.org/dl/".data u.data⟩ := by
  have e : upload_image_to_temporary_hosting (UploadResponse.resp 200 (some b)) =
      some (tmpfilesTransform u) := by
    simp [upload_image_to_temporary_hosting, hst, hurl]
  rw [e]
  unfold tmpfilesTransform pyReplace
  rw [countOccAux_one_replace_once "tmpfiles.org/".data "tmpfiles.org/dl/".data (by decide)
    u.data.length u.data (Nat.le_refl _) honce]

/-- Claim C4 witness: the transform theorem applied to a typical host URL
containing the substring exactly once. -/
theorem upload_url_transform_witness :
    upload_image_to_temporary_hosting (UploadResponse.resp 200
        (some ⟨some "success", some "https://tmpfiles.org/123/a.png"⟩)) =
      some ⟨substituteOnceSpec "tmpfiles.org/".data "tmpfiles.org/dl/".data
        "https://tmpfiles.org/123/a.png".data⟩ :=
  upload_url_transform_single_occurrence
    ⟨some "success", some "https://tmpfiles.org/123/a.png"⟩
    "https://tmpfiles.org/123/a.png" rfl rfl (by decide)

/-- Claim C4 counterexample to "substituted exactly once": a reported URL
containing "tmpfiles.org/" twice has both occurrences replaced, so the
returned URL differs from the input with the substring substituted exactly
once. -/
theorem upload_url_double_substitution_cex :
    upload_image_to_temporary_hosting (UploadResponse.resp 200
        (some ⟨some "success", some "https://tmpfiles.org/1/tmpfiles.org/a.png"⟩)) =
      some "https://tmpfiles.org/dl/1/tmpfiles.org/dl/a.png" ∧
    ("https://tmpfiles.org/dl/1/tmpfiles.org/dl/a.png" : String) ≠
      ⟨substituteOnceSpec "tmpfiles.org/".data "tmpfiles.org/dl/".data
        "https://tmpfiles.org/1/tmpfiles.org/a.png".data⟩ := by
  constructor <;> decide

/-- Claim C5 (amended): within one submit-and-poll flow the token is minted
exactly once, at submit time: every request of the trace — the submit POST
and every poll GET, whatever its own clock time — carries the token built
from the submit call's two clock readings, whose expiry is the first
reading plus 1800 seconds and whose not-before is the second reading minus
5 seconds.  Polling never regenerates the token. -/
theorem token_minted_once_per_submit (ak : String) (t1 t2 : Int) (poll_times : List Int)
    (r : KlingRequest) (h : r ∈ kling_request_trace ak t1 t2 poll_times) :
    r.token = encode_jwt_token ak t1 t2 ∧
    r.token.exp = t1 + 1800 ∧
    r.token.nbf = t2 - 5 := by
  have htok : r.token = encode_jwt_token ak t1 t2 := by
    simp only [kling_request_trace, List.mem_cons, List.mem_map] at h
    rcases h with h | ⟨t, _, h⟩
    · rw [h]
    · rw [← h]
  exact ⟨htok, by rw [htok]; rfl, by rw [htok]; rfl⟩

/-- Claim C5 witness: the theorem applied to the second request (a poll at
clock time 5) of a trace whose submit read the clock at 0 twice. -/
theorem token_minted_once_per_submit_witness :
    (⟨"poll", 5, ⟨"ak", 1800, -5⟩⟩ : KlingRequest).token = encode_jwt_token "ak" 0 0 ∧
    (⟨"poll", 5, ⟨"ak", 1800, -5⟩⟩ : KlingRequest).token.exp = 0 + 1800 ∧
    (⟨"poll", 5, ⟨"ak", 1800, -5⟩⟩ : KlingRequest).token.nbf = 0 - 5 :=
  token_minted_once_per_submit "ak" 0 0 [5] ⟨"poll", 5, ⟨"ak", 1800, -5⟩⟩ (by decide)

/-- Claim C5 counterexample to "every poll request uses a freshly generated
token": in a flow submitted at clock time 0 with polls at times 5 and 10,
both polls carry the token minted at time 0, which differs from the token
a fresh generation at their own call times would produce. -/
theorem token_reused_across_poll_calls_cex :
    (kling_request_trace "ak" 0 0 [5, 10])[1]? =
      some ⟨"poll", 5, encode_jwt_token "ak" 0 0⟩ ∧
    (kling_request_trace "ak" 0 0 [5, 10])[2]? =
      some ⟨"poll", 10, encode_jwt_token "ak" 0 0⟩ ∧
    encode_jwt_token "ak" 0 0 ≠ encode_jwt_token "ak" 5 5 ∧
    encode_jwt_token "ak" 0 0 ≠ encode_jwt_token "ak" 10 10 := by
  refine ⟨rfl, rfl, ?_, ?_⟩ <;> decide

/-! ## Discovery equals filter-map -/

/-- The discovery loop is the filter of the listing by the image-file test
followed by tupling path, classification and stem. -/
theorem find_images_eq_filter_map (dir : String) :
    ∀ entries : List DirEntry,
      findImagesLoop dir entries = (entries.filter isImageFile).map
        (fun e => (dir ++ "/" ++ e.name, is_crying_name e.name, pyStem e.name)) := by
  intro entries
  induction entries with
  | nil => rfl
  | cons e rest ih =>
    by_cases he : isImageFile e = true
    · simp [findImagesLoop, List.filter_cons, he, ih]
    · simp [findImagesLoop, List.filter_cons, he, ih]

/-- Claim C6: the discovered tuples classify each file by the pure test
`is_crying_name` on its filename (a case-insensitive "crying" substring
match), and the variant selection gives a distinguished image exactly 1
task and a standard image exactly `PROMPTS_keys.length - 1 = 4` tasks. -/
theorem image_classification_and_task_count :
    (∀ dir entries l, find_all_input_images dir true entries = Except.ok l →
        l = (entries.filter isImageFile).map
          (fun e => (dir ++ "/" ++ e.name, is_crying_name e.name, pyStem e.name))) ∧
    (∀ name, is_crying_name name = containsSubStr "crying" (lowerStr name)) ∧
    (prompts_to_use true).length = 1 ∧
    (prompts_to_use false).length = PROMPTS_keys.length - 1 ∧
    PROMPTS_keys.length - 1 = 4 := by
  refine ⟨?_, fun name => rfl, by decide, by decide, by decide⟩
  intro dir entries l hok
  by_cases hemp : findImagesLoop dir entries = []
  · exfalso
    have herr : find_all_input_images dir true entries =
        Except.error "No image files found in base-image directory" := by
      simp [find_all_input_images, hemp]
    rw [herr] at hok
    exact Except.noConfusion hok
  · have hokk : find_all_input_images dir true entries =
        Except.ok (findImagesLoop dir entries) := by
      simp [find_all_input_images, hemp]
    rw [hokk] at hok
    injection hok with h2
    rw [← h2]
    exact find_images_eq_filter_map dir entries

/-- Claim C6 witness: the theorem applied to a one-entry listing whose file
name contains "Crying" (case-insensitively classified as distinguished). -/
theorem image_classification_witness :
    ([("base-image/Crying-girl.png", true, "Crying-girl")] : List (String × Bool × String)) =
      (([⟨"Crying-girl.png", true⟩] : List DirEntry).filter isImageFile).map
        (fun e => ("base-image" ++ "/" ++ e.name, is_crying_name e.name, pyStem e.name)) :=
  image_classification_and_task_count.1 "base-image" [⟨"Crying-girl.png", true⟩] _ rfl

/-! ## Orchestrator accounting lemmas -/

/-- Whether a download response makes `download_kling_video` return the save
path (a 200 status) rather than `None`. -/
def downloadSucceeds : HttpDownload → Bool
  | .raised => false
  | .resp status_code _ => status_code = 200

/-- The result and progress components of a download are functions of the
response alone, not of the filesystem. -/
theorem download_components (fs : FS) (r : HttpDownload) (p : String) :
    (download_kling_video fs r p).1 = (if downloadSucceeds r then some p else none) ∧
    (download_kling_video fs r p).2.2 = (if downloadSucceeds r then 1 else 0) := by
  cases r with
  | raised => exact ⟨rfl, rfl⟩
  | resp status_code chunks =>
    by_cases h : status_code = 200
    · simp [download_kling_video, downloadSucceeds, h]
    · simp [download_kling_video, downloadSucceeds, h]

/-- Per-variant loop: each variant resolves to exactly one of success or
failure, and the collected path list grows exactly with the successes —
whatever the starting filesystem. -/
theorem processVariants_accounting (env : ImageEnv) (image_basename : String) :
    ∀ emotions fs,
      (processVariants env image_basename emotions fs).successful +
        (processVariants env image_basename emotions fs).failed = emotions.length ∧
      (processVariants env image_basename emotions fs).paths.length =
        (processVariants env image_basename emotions fs).successful := by
  intro emotions
  induction emotions with
  | nil => exact fun fs => ⟨rfl, rfl⟩
  | cons e rest ih =>
    intro fs
    cases hg : env.gen e with
    | none =>
      have h := ih fs
      simp only [processVariants, hg, List.length_cons]
      omega
    | some url =>
      cases hd : (download_kling_video fs (env.dl e) (output_path image_basename e)).1 with
      | some p =>
        have h := ih (download_kling_video fs (env.dl e) (output_path image_basename e)).2.1
        simp only [processVariants, hg, hd, List.length_cons]
        constructor
        · omega
        · omega
      | none =>
        have h := ih (download_kling_video fs (env.dl e) (output_path image_basename e)).2.1
        simp only [processVariants, hg, hd, List.length_cons]
        omega

/-- The success and failure counters of the per-variant loop do not depend
on the starting filesystem. -/
theorem processVariants_counts_fs_irrel (env : ImageEnv) (image_basename : String) :
    ∀ emotions fs fs',
      (processVariants env image_basename emotions fs).successful =
        (processVariants env image_basename emotions fs').successful ∧
      (processVariants env image_basename emotions fs).failed =
        (processVariants env image_basename emotions fs').failed := by
  intro emotions
  induction emotions with
  | nil => exact fun fs fs' => ⟨rfl, rfl⟩
  | cons e rest ih =>
    intro fs fs'
    cases hg : env.gen e with
    | none =>
      have h := ih fs fs'
      simp only [processVariants, hg]
      omega
    | some url =>
      have hc := download_components fs (env.dl e) (output_path image_basename e)
      have hc' := download_components fs' (env.dl e) (output_path image_basename e)
      have h := ih (download_kling_video fs (env.dl e) (output_path image_basename e)).2.1
        (download_kling_video fs' (env.dl e) (output_path image_basename e)).2.1
      by_cases hs : downloadSucceeds (env.dl e) = true
      · have h1 : (download_kling_video fs (env.dl e) (output_path image_basename e)).1 =
            some (output_path image_basename e) := by
          rw [hc.1, if_pos hs]
        have h1' : (download_kling_video fs' (env.dl e) (output_path image_basename e)).1 =
            some (output_path image_basename e) := by
          rw [hc'.1, if_pos hs]
        simp only [processVariants, hg, h1, h1']
        omega
      · have h1 : (download_kling_video fs (env.dl e) (output_path image_basename e)).1 =
            none := by
          rw [hc.1, if_neg hs]
        have h1' : (download_kling_video fs' (env.dl e) (output_path image_basename e)).1 =
            none := by
          rw [hc'.1, if_neg hs]
        simp only [processVariants, hg, h1, h1']
        omega

/-- Claim C9: when the upload succeeds, `process_single_image` returns the
triple of the per-variant loop, in which every selected variant resolves to
exactly one of success or failure: successes plus failures equal the number
of selected variants (1 for a distinguished image, 4 for a standard one),
and the successful-path list has exactly the successful count's length. -/
theorem per_image_task_accounting (env : ImageEnv) (is_crying_image : Bool)
    (image_basename : String) (fs : FS) (u : String) (h : env.upload = some u) :
    (process_single_image env is_crying_image image_basename fs).1 =
      some ((processVariants env image_basename (prompts_to_use is_crying_image) fs).successful,
            (processVariants env image_basename (prompts_to_use is_crying_image) fs).failed,
            (processVariants env image_basename (prompts_to_use is_crying_image) fs).paths) ∧
    (processVariants env image_basename (prompts_to_use is_crying_image) fs).successful +
      (processVariants env image_basename (prompts_to_use is_crying_image) fs).failed =
      (prompts_to_use is_crying_image).length ∧
    (processVariants env image_basename (prompts_to_use is_crying_image) fs).paths.length =
      (processVariants env image_basename (prompts_to_use is_crying_image) fs).successful ∧
    (prompts_to_use is_crying_image).length = videos_per_image is_crying_image := by
  have hacc := processVariants_accounting env image_basename (prompts_to_use is_crying_image) fs
  refine ⟨?_, hacc.1, hacc.2, ?_⟩
  · simp [process_single_image, h]
  · cases is_crying_image <;> decide

/-- Claim C9 witness: the accounting theorem at a concrete standard image
whose four variants all succeed. -/
theorem per_image_task_accounting_witness :
    (process_single_image
        ⟨some "https://u", fun _ => some "https://v", fun _ => HttpDownload.resp 200 [[1]]⟩
        false "img" emptyFS).1 =
      some ((processVariants
              ⟨some "https://u", fun _ => some "https://v", fun _ => HttpDownload.resp 200 [[1]]⟩
              "img" (prompts_to_use false) emptyFS).successful,
            (processVariants
              ⟨some "https://u", fun _ => some "https://v", fun _ => HttpDownload.resp 200 [[1]]⟩
              "img" (prompts_to_use false) emptyFS).failed,
            (processVariants
              ⟨some "https://u", fun _ => some "https://v", fun _ => HttpDownload.resp 200 [[1]]⟩
              "img" (prompts_to_use false) emptyFS).paths) ∧
    (processVariants
        ⟨some "https://u", fun _ => some "https://v", fun _ => HttpDownload.resp 200 [[1]]⟩
        "img" (prompts_to_use false) emptyFS).successful +
      (processVariants
        ⟨some "https://u", fun _ => some "https://v", fun _ => HttpDownload.resp 200 [[1]]⟩
        "img" (prompts_to_use false) emptyFS).failed = (prompts_to_use false).length ∧
    (processVariants
        ⟨some "https://u", fun _ => some "https://v", fun _ => HttpDownload.resp 200 [[1]]⟩
        "img" (prompts_to_use false) emptyFS).paths.length =
      (processVariants
        ⟨some "https://u", fun _ => some "https://v", fun _ => HttpDownload.resp 200 [[1]]⟩
        "img" (prompts_to_use false) emptyFS).successful ∧
    (prompts_to_use false).length = videos_per_image false :=
  per_image_task_accounting
    ⟨some "https://u", fun _ => some "https://v", fun _ => HttpDownload.resp 200 [[1]]⟩
    false "img" emptyFS "https://u" rfl

/-! ## Filesystem-independent count functions -/

/-- Success and failure counts of the per-variant loop as a function of the
oracle alone. -/
def variantCounts (env : ImageEnv) : List String → Nat × Nat
  | [] => (0, 0)
  | e :: rest =>
    let t := variantCounts env rest
    match env.gen e with
    | some _ => if downloadSucceeds (env.dl e) then (t.1 + 1, t.2) else (t.1, t.2 + 1)
    | none => (t.1, t.2 + 1)

/-- Counts one image contributes to the run totals: on upload failure the
orchestrator books `videos_per_image` failures and no successes. -/
def imageCounts (env : ImageEnv) (is_crying_image : Bool) : Nat × Nat :=
  match env.upload with
  | none => (0, videos_per_image is_crying_image)
  | some _ => variantCounts env (prompts_to_use is_crying_image)

/-- Run totals as the sum of per-image contributions. -/
def runCounts (env : String → ImageEnv) : List (String × Bool × String) → Nat × Nat
  | [] => (0, 0)
  | (image_path, is_crying, _) :: rest =>
    let hc := imageCounts (env image_path) is_crying
    let t := runCounts env rest
    (hc.1 + t.1, hc.2 + t.2)

/-- The per-variant loop's counters equal the oracle-only counts. -/
theorem processVariants_eq_variantCounts (env : ImageEnv) (image_basename : String) :
    ∀ emotions fs,
      (processVariants env image_basename emotions fs).successful =
        (variantCounts env emotions).1 ∧
      (processVariants env image_basename emotions fs).failed =
        (variantCounts env emotions).2 := by
  intro emotions
  induction emotions with
  | nil => exact fun fs => ⟨rfl, rfl⟩
  | cons e rest ih =>
    intro fs
    cases hg : env.gen e with
    | none =>
      have h := ih fs
      simp only [processVariants, variantCounts, hg]
      omega
    | some url =>
      have hc := download_components fs (env.dl e) (output_path image_basename e)
      have h := ih (download_kling_video fs (env.dl e) (output_path image_basename e)).2.1
      by_cases hs : downloadSucceeds (env.dl e) = true
      · have h1 : (download_kling_video fs (env.dl e) (output_path image_basename e)).1 =
            some (output_path image_basename e) := by
          rw [hc.1, if_pos hs]
        simp only [processVariants, variantCounts, hg, h1, if_pos hs]
        omega
      · have h1 : (download_kling_video fs (env.dl e) (output_path image_basename e)).1 =
            none := by
          rw [hc.1, if_neg hs]
        simp only [processVariants, variantCounts, hg, h1, if_neg hs]
        omega

/-- The orchestrator's totals equal the oracle-only run counts, whatever the
starting filesystem. -/
theorem generate_eq_runCounts (env : String → ImageEnv) :
    ∀ imgs fs,
      (generate_all_videos env imgs fs).total_successful = (runCounts env imgs).1 ∧
      (generate_all_videos env imgs fs).total_failed = (runCounts env imgs).2 := by
  intro imgs
  induction imgs with
  | nil => exact fun fs => ⟨rfl, rfl⟩
  | cons head rest ih =>
    obtain ⟨image_path, is_crying, image_basename⟩ := head
    intro fs
    cases hu : (env image_path).upload with
    | none =>
      have e1 : process_single_image (env image_path) is_crying image_basename fs =
          (none, 0, fs) := by
        simp [process_single_image, hu]
      have h := ih fs
      simp only [generate_all_videos, e1, runCounts, imageCounts, hu]
      omega
    | some u =>
      have e1 : process_single_image (env image_path) is_crying image_basename fs =
          (some ((processVariants (env image_path) image_basename
                    (prompts_to_use is_crying) fs).successful,
                 (processVariants (env image_path) image_basename
                    (prompts_to_use is_crying) fs).failed,
                 (processVariants (env image_path) image_basename
                    (prompts_to_use is_crying) fs).paths),
           1 + (processVariants (env image_path) image_basename
                  (prompts_to_use is_crying) fs).progress,
           (processVariants (env image_path) image_basename
              (prompts_to_use is_crying) fs).fs) := by
        simp [process_single_image, hu]
      have hv := processVariants_eq_variantCounts (env image_path) image_basename
        (prompts_to_use is_crying) fs
      have h := ih (processVariants (env image_path) image_basename
        (prompts_to_use is_crying) fs).fs
      simp only [generate_all_videos, e1, runCounts, imageCounts, hu]
      omega

/-- Run counts split across list concatenation. -/
theorem runCounts_append (env : String → ImageEnv) :
    ∀ xs ys, (runCounts env (xs ++ ys)).1 = (runCounts env xs).1 + (runCounts env ys).1 ∧
      (runCounts env (xs ++ ys)).2 = (runCounts env xs).2 + (runCounts env ys).2 := by
  intro xs ys
  induction xs with
  | nil => simp [runCounts]
  | cons head rest ih =>
    obtain ⟨image_path, is_crying, image_basename⟩ := head
    obtain ⟨ih1, ih2⟩ := ih
    simp only [List.cons_append, runCounts, List.append_eq] at ih1 ih2 ⊢
    omega

/-- Claim C7: an image whose upload fails contributes exactly
`videos_per_image` failed tasks and 0 successful tasks, and the orchestrator
continues with the images before and after it unchanged — the run's totals
split into the surrounding images' totals plus that image's fixed failure
count (whatever filesystems the runs start from). -/
theorem upload_failure_is_isolated (env : String → ImageEnv)
    (pre post : List (String × Bool × String)) (image_path : String) (is_crying : Bool)
    (image_basename : String) (fs fsA fsB : FS)
    (h : (env image_path).upload = none) :
    (generate_all_videos env (pre ++ (image_path, is_crying, image_basename) :: post)
        fs).total_successful =
      (generate_all_videos env pre fsA).total_successful +
      (generate_all_videos env post fsB).total_successful ∧
    (generate_all_videos env (pre ++ (image_path, is_crying, image_basename) :: post)
        fs).total_failed =
      (generate_all_videos env pre fsA).total_failed + videos_per_image is_crying +
      (generate_all_videos env post fsB).total_failed := by
  have hall := generate_eq_runCounts env
    (pre ++ (image_path, is_crying, image_basename) :: post) fs
  have hpre := generate_eq_runCounts env pre fsA
  have hpost := generate_eq_runCounts env post fsB
  have happ := runCounts_append env pre ((image_path, is_crying, image_basename) :: post)
  have hmid1 : (runCounts env ((image_path, is_crying, image_basename) :: post)).1 =
      (runCounts env post).1 := by
    simp [runCounts, imageCounts, h]
  have hmid2 : (runCounts env ((image_path, is_crying, image_basename) :: post)).2 =
      videos_per_image is_crying + (runCounts env post).2 := by
    simp [runCounts, imageCounts, h]
  omega

/-- Claim C7 witness: a three-image run whose middle image's upload fails —
totals are those of the first and last image plus 4 booked failures. -/
theorem upload_failure_is_isolated_witness :
    (generate_all_videos
        (fun p => if p = "base-image/bad.png"
          then ⟨none, fun _ => none, fun _ => HttpDownload.raised⟩
          else ⟨some "https://u", fun _ => some "https://v", fun _ => HttpDownload.resp 200 [[1]]⟩)
        ([("base-image/a.png", false, "a")] ++
          ("base-image/bad.png", false, "bad") :: [("base-image/c.png", true, "c")])
        emptyFS).total_successful =
      (generate_all_videos
        (fun p => if p = "base-image/bad.png"
          then ⟨none, fun _ => none, fun _ => HttpDownload.raised⟩
          else ⟨some "https://u", fun _ => some "https://v", fun _ => HttpDownload.resp 200 [[1]]⟩)
        [("base-image/a.png", false, "a")] emptyFS).total_successful +
      (generate_all_videos
        (fun p => if p = "base-image/bad.png"
          then ⟨none, fun _ => none, fun _ => HttpDownload.raised⟩
          else ⟨some "https://u", fun _ => some "https://v", fun _ => HttpDownload.resp 200 [[1]]⟩)
        [("base-image/c.png", true, "c")] emptyFS).total_successful ∧
    (generate_all_videos
        (fun p => if p = "base-image/bad.png"
          then ⟨none, fun _ => none, fun _ => HttpDownload.raised⟩
          else ⟨some "https://u", fun _ => some "https://v", fun _ => HttpDownload.resp 200 [[1]]⟩)
        ([("base-image/a.png", false, "a")] ++
          ("base-image/bad.png", false, "bad") :: [("base-image/c.png", true, "c")])
        emptyFS).total_failed =
      (generate_all_videos
        (fun p => if p = "base-image/bad.png"
          then ⟨none, fun _ => none, fun _ => HttpDownload.raised⟩
          else ⟨some "https://u", fun _ => some "https://v", fun _ => HttpDownload.resp 200 [[1]]⟩)
        [("base-image/a.png", false, "a")] emptyFS).total_failed + videos_per_image false +
      (generate_all_videos
        (fun p => if p = "base-image/bad.png"
          then ⟨none, fun _ => none, fun _ => HttpDownload.raised⟩
          else ⟨some "https://u", fun _ => some "https://v", fun _ => HttpDownload.resp 200 [[1]]⟩)
        [("base-image/c.png", true, "c")] emptyFS).total_failed :=
  upload_failure_is_isolated
    (fun p => if p = "base-image/bad.png"
      then ⟨none, fun _ => none, fun _ => HttpDownload.raised⟩
      else ⟨some "https://u", fun _ => some "https://v", fun _ => HttpDownload.resp 200 [[1]]⟩)
    [("base-image/a.png", false, "a")] [("base-image/c.png", true, "c")]
    "base-image/bad.png" false "bad" emptyFS emptyFS emptyFS (by simp)

/-- Claim C2: the progress counter does not advance on a failed download.
For one standard image whose upload succeeds, whose four generations all
return a video URL, and whose "surprised" download gets a 404 (the other
three a 200), the run adds only 8 progress units while the precomputed bar
total is 9: `download_kling_video` calls `progress_bar.update(1)` only on
its 200 path and `process_single_image` adds no compensating update on the
download-failure branch, so the bar ends short of its total — contradicting
"one unit per logical step regardless of outcome".  (Every other failure
path does advance the bar by the step's full share, as the source's
explicit skip updates show.) -/
theorem progress_undercounts_on_failed_download :
    (generate_all_videos
        (fun _ => ⟨some "https://u", fun _ => some "https://v",
          fun emotion => if emotion = "surprised" then HttpDownload.resp 404 []
            else HttpDownload.resp 200 [[1]]⟩)
        [("base-image/img.png", false, "img")] emptyFS).progress = 8 ∧
    total_video_steps [("base-image/img.png", false, "img")] = 9 := by
  constructor <;> decide

/-- Claim C10: a download whose response status is not 200 raises, the
exception is caught, and the call returns `None` — the filesystem is
returned untouched (no file created, no bytes written at the destination)
and the shared progress bar is not advanced. -/
theorem download_non200_writes_nothing (fs : FS) (status_code : Nat) (chunks : List Content)
    (save_path : String) (h : status_code ≠ 200) :
    download_kling_video fs (HttpDownload.resp status_code chunks) save_path =
      (none, fs, 0) := by
  simp [download_kling_video, h]

/-- Claim C10 witness: a 404 download against the empty filesystem returns
`None` and leaves the filesystem empty. -/
theorem download_non200_writes_nothing_witness :
    download_kling_video emptyFS (HttpDownload.resp 404 [[1, 2]]) "output-videos/img-sad.mp4" =
      (none, emptyFS, 0) :=
  download_non200_writes_nothing emptyFS 404 [[1, 2]] "output-videos/img-sad.mp4" (by decide)
